import Mathlib

/-!
Verification development for the `conda-protect` repository.

The repository ships two near-identical conda plugins:
  * `conda_protect/main.py` — subcommand `protect`, sentinel file `.protected`;
  * `envlock/main.py`       — subcommand `el`, sentinel file `.locked`.

We shallowly embed the pure logic of both plugins.  The filesystem is a set of
files modelled as `String → Bool` (does this path exist?).  Host state that the
plugins read from conda's `context` singleton (search directories, root
location, known prefixes as returned by `list_all_known_prefixes`, dry-run
flag, target/active prefix, parsed command-line arguments) is packaged into an
explicit `Context` value.  Paths are plain strings; `joinpath` appends a path
segment and `basename` takes the final `/`-separated segment, matching
`pathlib.Path.joinpath` / `os.path.basename` for the absolute, slash-separated
paths this program works with.
-/

/-- Constant `ROOT_ENV_NAME` from `conda.base.constants`. -/
def ROOT_ENV_NAME : String := "base"

/-- Constant `GUARDFILE_NAME` of conda_protect/main.py. -/
def GUARDFILE_NAME : String := ".protected"

/-- Constant `GUARD_COMMAND_NAME` of conda_protect/main.py. -/
def GUARD_COMMAND_NAME : String := "protect"

/-- Constant `LOCKFILE_NAME` of envlock/main.py. -/
def LOCKFILE_NAME : String := ".locked"

/-- Constant `COMMAND_NAME` of envlock/main.py — the subcommand the envlock plugin registers. -/
def COMMAND_NAME : String := "el"

/-- The filesystem: which absolute paths currently exist as files. -/
def FS : Type := String → Bool

/-- Model of `Path.joinpath`: append one segment. -/
def joinpath (p seg : String) : String := p ++ "/" ++ seg

/-- Model of `os.path.basename`: the part after the last slash. -/
def basename (s : String) : String :=
  String.mk ((s.data.splitOn '/').getLastD [])

/-- Python `str.startswith`. -/
def startswith (s pre : String) : Bool := pre.data.isPrefixOf s.data

/-- Model of `Path.exists()` — a read: returns the answer and the (unchanged) filesystem. -/
def pathExists (fs : FS) (p : String) : Bool × FS := (fs p, fs)

/-- Model of `Path.touch()` — creates the file (succeeds also when it already exists). -/
def touchFile (fs : FS) (p : String) : FS :=
  fun q => if q = p then true else fs q

/-- Model of `Path.unlink()` — removes the file; raises `FileNotFoundError` when absent. -/
def unlinkFile (fs : FS) (p : String) : Except String FS :=
  if fs p then Except.ok (fun q => if q = p then false else fs q)
  else Except.error ("No such file or directory: " ++ p)

/-- Python `dict` as an insertion-ordered association list; assignment to an
existing key updates the value in place, a new key is appended. -/
def Dict : Type := List (String × String)

def dictInsert (d : Dict) (k v : String) : Dict :=
  match d with
  | [] => [(k, v)]
  | (k', v') :: rest =>
    if k' = k then (k', v) :: rest else (k', v') :: dictInsert rest k v

def dictLookup (d : Dict) (k : String) : Option String :=
  (List.find? (fun kv => kv.1 = k) d).map (fun kv => kv.2)

def dictKeys (d : Dict) : List String := d.map (fun kv => kv.1)

def dictValues (d : Dict) : List String := d.map (fun kv => kv.2)

def dictItems (d : Dict) : List (String × String) := d

/-- Parsed command-line arguments relevant to the hooks: the `--name` and
`--prefix` options.  Python tests them for truthiness, so the empty string
stands for "absent or empty". -/
structure CmdArgs where
  namearg : String
  prefixArg : String
deriving DecidableEq, Repr

/-- The host (`conda.base.context.context`) state the plugins read, plus the
result of `conda.core.envs_manager.list_all_known_prefixes`. -/
structure Context where
  envs_dirs : List String
  /-- Models `context.root_prefix`. -/
  rootDir : String
  /-- Result of `list_all_known_prefixes()`. -/
  prefixes : List String
  /-- Models `context.dry_run`. -/
  dry_run : Bool
  /-- Models `context.target_prefix` (conda_protect hook fallback). -/
  targetDir : String
  /-- Models `context.active_prefix` (envlock hook fallback). -/
  activeDir : String
  /-- Models `context.raw_data["cmd_line"]` distilled to the `name`/`prefix`
  options (conda_protect hook); `none` when `raw_data` has no cmd-line data. -/
  cmd_line : Option CmdArgs

/-- Structure `EnvironmentInfo` from either plugin file; envlock names the flag field
`locked` instead of `guarded`, with identical meaning. -/
structure EnvironmentInfo where
  name : String
  path : String
  guarded : Bool
deriving DecidableEq, Repr

/-- Function `get_name_to_prefix_map` (identical in both plugin files): a dict
comprehension over `(prefix, env_dir)` pairs keeping prefixes under a
configured environment directory, keyed by basename, then the reserved root
name is mapped to the root location. -/
def envDirStep (p : String) (d : Dict) (e : String) : Dict :=
  if startswith p e then dictInsert d (basename p) p else d

def n2pStep (dirs : List String) (d : Dict) (p : String) : Dict :=
  dirs.foldl (envDirStep p) d

def get_name_to_prefix_map (ctx : Context) (prefixes : List String) : Dict :=
  let mapping := prefixes.foldl (n2pStep ctx.envs_dirs) []
  dictInsert mapping ROOT_ENV_NAME ctx.rootDir

/-- Python `sorted` key comparison for strings: lexicographic on code points. -/
def charListLe : List Char → List Char → Bool
  | [], _ => true
  | _ :: _, [] => false
  | a :: as, b :: bs =>
    if a = b then charListLe as bs else decide (a.toNat < b.toNat)

def nameLe (x y : EnvironmentInfo) : Bool := charListLe x.name.data y.name.data

/-- The ordering `sorted(..., key=lambda env: env.name)` sorts by. -/
def nameLeR (x y : EnvironmentInfo) : Prop := nameLe x y = true

instance : DecidableRel nameLeR := fun x y => instDecidableEqBool (nameLe x y) true

/-- Python `sorted(..., key=lambda env: env.name)`.  `sorted` is a stable sort
and a stable sort's output is uniquely determined by the comparison, so the
structurally recursive stable `List.insertionSort` models it exactly. -/
def pySorted (l : List EnvironmentInfo) : List EnvironmentInfo :=
  List.insertionSort nameLeR l

/-- Function `get_environment_info` (identical in both files up to the sentinel-file
name, passed here as `marker`): first the known prefixes that are not values
of the name map (entered with empty name), then the named entries in dict
order, finally `sorted(..., key=lambda env: env.name)`.  Every sentinel-file
existence check reads the filesystem, which is threaded through. -/
def unnamedStep (marker : String) (vals : List String)
    (acc : List EnvironmentInfo × FS) (p : String) : List EnvironmentInfo × FS :=
  if vals.contains p then acc
  else
    let r := pathExists acc.2 (joinpath p marker)
    (acc.1 ++ [⟨"", p, r.1⟩], r.2)

def namedStep (marker : String) (acc : List EnvironmentInfo × FS)
    (kv : String × String) : List EnvironmentInfo × FS :=
  let r := pathExists acc.2 (joinpath kv.2 marker)
  (acc.1 ++ [⟨kv.1, kv.2, r.1⟩], r.2)

def get_environment_info (marker : String) (ctx : Context) (fs : FS) :
    List EnvironmentInfo × FS :=
  let prefixes := ctx.prefixes
  let n2p := get_name_to_prefix_map ctx prefixes
  let step1 :=
    prefixes.foldl (unnamedStep marker (dictValues n2p))
      (([] : List EnvironmentInfo), fs)
  let step2 := (dictItems n2p).foldl (namedStep marker) step1
  (pySorted step2.1, step2.2)

/-- Shared body of `toggle_environment_guard` / `toggle_environment_lock`:
remove the sentinel file when the in-memory flag is set, create it otherwise,
and return the record with the flag negated.  `rmMsg`/`_addMsg` are the error
prefixes of the respective plugin; the creation-failure branch is unreachable
here because `touchFile` models `Path.touch`, which also succeeds when the file
already exists. -/
def toggleCore (marker rmMsg _addMsg : String) (fs : FS) (env : EnvironmentInfo) :
    Except String (EnvironmentInfo × FS) :=
  if env.guarded then
    match unlinkFile fs (joinpath env.path marker) with
    | Except.error exc => Except.error (rmMsg ++ exc)
    | Except.ok fs' => Except.ok (⟨env.name, env.path, !env.guarded⟩, fs')
  else
    let fs' := touchFile fs (joinpath env.path marker)
    Except.ok (⟨env.name, env.path, !env.guarded⟩, fs')

/-- Function `toggle_environment_guard` of conda_protect/main.py. -/
def toggle_environment_guard (fs : FS) (env : EnvironmentInfo) :
    Except String (EnvironmentInfo × FS) :=
  toggleCore GUARDFILE_NAME
    "Unable to remove a guard for the following reason: "
    "Unable to guard for the following reason: " fs env

/-- Function `toggle_environment_lock` of envlock/main.py. -/
def toggle_environment_lock (fs : FS) (env : EnvironmentInfo) :
    Except String (EnvironmentInfo × FS) :=
  toggleCore LOCKFILE_NAME
    "Unable to remove a lock for the following reason: "
    "Unable to create a lock for the following reason: " fs env

/-- Function `validate_environment` (identical in both files up to the sentinel name
and the error class; both use the message "Environment not found"): the token
is first tested for membership in the known prefixes, then — when not `None` —
as a key of the name map; `None` passes through as `None`. -/
def validate_environment (marker : String) (ctx : Context) (fs : FS)
    (value : Option String) : Except String (Option EnvironmentInfo) × FS :=
  let prefixes := ctx.prefixes
  let n2p := get_name_to_prefix_map ctx prefixes
  match value with
  | none => (Except.ok none, fs)
  | some v =>
    if prefixes.contains v then
      let r := pathExists fs (joinpath v marker)
      (Except.ok (some ⟨v, v, r.1⟩), r.2)
    else
      match dictLookup n2p v with
      | none => (Except.error "Environment not found", fs)
      | some p =>
        let r := pathExists fs (joinpath p marker)
        (Except.ok (some ⟨v, p, r.1⟩), r.2)

/-- The target the pre-command hooks look an environment up by: a `name`
attribute value or a `path` attribute value (`lookup_attr`/`value` pairs in
the source). -/
inductive Lookup where
  | byName (n : String)
  | byPath (p : String)
deriving DecidableEq, Repr

/-- Test `getattr(env, lookup_attr) == value` from the hooks. -/
def lookupMatches : Lookup → EnvironmentInfo → Bool
  | Lookup.byName n, env => env.name == n
  | Lookup.byPath p, env => env.path == p

/-- Function `_get_active_environment` of conda_protect/main.py: inspect
`context.raw_data["cmd_line"]`; a truthy `name` option wins, then a truthy
`prefix` option, else `(None, None)`. -/
def _get_active_environment (ctx : Context) : Option Lookup :=
  match ctx.cmd_line with
  | none => none
  | some args =>
    if args.namearg != "" then some (Lookup.byName args.namearg)
    else if args.prefixArg != "" then some (Lookup.byPath args.prefixArg)
    else none

/-- The lookup the conda_protect hook ends up using: the result of
`_get_active_environment`, or `("path", Path(context.target_prefix))` when
that is `(None, None)`. -/
def hookLookup (ctx : Context) : Lookup :=
  match _get_active_environment ctx with
  | some l => l
  | none => Lookup.byPath ctx.targetDir

/-- Python `env.name or env.path`: the name when non-empty, else the location. -/
def displayId (env : EnvironmentInfo) : String :=
  if env.name == "" then env.path else env.name

/-- The f-string raised by `conda_guard_pre_commands_action` on a protected
environment. -/
def protectMsg (env : EnvironmentInfo) : String :=
  "Environment \"" ++ displayId env ++ "\" is currently protected. " ++
    "Run `conda " ++ GUARD_COMMAND_NAME ++ " \x27" ++ displayId env ++
    "\x27` to remove protection."

/-- Hook `conda_guard_pre_commands_action` of conda_protect/main.py: return early under
`context.dry_run`, otherwise filter the known environments by the looked-up
attribute and guardedness and raise on the first match. -/
def conda_guard_pre_commands_action (ctx : Context) (fs : FS) :
    Except String Unit × FS :=
  if ctx.dry_run then (Except.ok (), fs)
  else
    let r := get_environment_info GUARDFILE_NAME ctx fs
    let look := hookLookup ctx
    let guarded_envs := r.1.filter (fun env => lookupMatches look env && env.guarded)
    match guarded_envs with
    | [] => (Except.ok (), r.2)
    | env :: _ => (Except.error (protectMsg env), r.2)

/-- Target selection of `custom_plugin_pre_commands_action` (envlock): a
truthy `args.name`, then a truthy `args.prefix`, else
`Path(context.active_prefix)`. -/
def envlockLookup (ctx : Context) (args : CmdArgs) : Lookup :=
  if args.namearg != "" then Lookup.byName args.namearg
  else if args.prefixArg != "" then Lookup.byPath args.prefixArg
  else Lookup.byPath ctx.activeDir

/-- The message raised by `custom_plugin_pre_commands_action`.  The second
sentence of the source is a plain (non-f) string literal, so the placeholder
text `\x7benv.name or env.path\x7d` appears verbatim, and the named command is
the hardcoded `conda envlock` rather than the registered `el` subcommand. -/
def envlockMsg (env : EnvironmentInfo) : String :=
  "Environment \"" ++ displayId env ++ "\" is currently locked. " ++
    "Run `conda envlock \x27\x7benv.name or env.path\x7d\x27` to unlock it."

/-- Hook `custom_plugin_pre_commands_action` of envlock/main.py: same filter as the
conda_protect hook, but with no dry-run bypass. -/
def custom_plugin_pre_commands_action (ctx : Context) (fs : FS)
    (args : CmdArgs) : Except String Unit × FS :=
  let r := get_environment_info LOCKFILE_NAME ctx fs
  let look := envlockLookup ctx args
  let locked_envs := r.1.filter (fun env => lookupMatches look env && env.guarded)
  match locked_envs with
  | [] => (Except.ok (), r.2)
  | env :: _ => (Except.error (envlockMsg env), r.2)

/-- Subcommand name registered by `conda_protect.main.conda_subcommands`. -/
def conda_protect_subcommand_name : String := GUARD_COMMAND_NAME

/-- Subcommand name registered by `envlock.main.conda_subcommands`. -/
def envlock_subcommand_name : String := COMMAND_NAME

/-- Observable outcome of a command-surface invocation. -/
inductive GuardResult where
  | listed (envs : List EnvironmentInfo)
  | toggled (env : EnvironmentInfo)
  | condaErr (msg : String)
  /-- Python `AttributeError` raised by `env.guarded` / `env.locked` when
  `env` is `None`. -/
  | attrErrorNone
deriving DecidableEq, Repr

/-- Body of `conda_protect.main.guard`, the `conda protect` command (renamed
`guard_cmd` here because core Lean already has a `guard`).  The
`environment` argument is what the `validate_environment` click callback
produced.  In list mode the `--protected` filter is applied before the
`--named` filter; otherwise `toggle_environment_guard(environment)` runs,
which on `environment = None` hits attribute access on `None`. -/
def guard_list (ctx : Context) (fs : FS) (protectedF named : Bool) :
    List EnvironmentInfo × FS :=
  let r := get_environment_info GUARDFILE_NAME ctx fs
  let a1 := if protectedF then r.1.filter (fun e => e.guarded) else r.1
  let a2 := if named then a1.filter (fun e => e.name != "") else a1
  (a2, r.2)

def guard_cmd (ctx : Context) (fs : FS) (environment : Option EnvironmentInfo)
    (list_envs protectedF named : Bool) : GuardResult × FS :=
  if list_envs then
    let r := guard_list ctx fs protectedF named
    (GuardResult.listed r.1, r.2)
  else
    match environment with
    | none => (GuardResult.attrErrorNone, fs)
    | some env =>
      match toggle_environment_guard fs env with
      | Except.error m => (GuardResult.condaErr m, fs)
      | Except.ok r => (GuardResult.toggled r.1, r.2)

/-- Body of `envlock.main.envlock_lock`, the `conda el lock` command. -/
def envlock_lock (fs : FS) (environment : Option EnvironmentInfo) :
    GuardResult × FS :=
  match environment with
  | none => (GuardResult.attrErrorNone, fs)
  | some env =>
    match toggle_environment_lock fs env with
    | Except.error m => (GuardResult.condaErr m, fs)
    | Except.ok r => (GuardResult.toggled r.1, r.2)

/-- Body of `envlock.main.envlock_list`, the `conda el list` command: the
`--locked` filter is applied before the `--named` filter. -/
def envlock_list (ctx : Context) (fs : FS) (locked named : Bool) :
    List EnvironmentInfo × FS :=
  let r := get_environment_info LOCKFILE_NAME ctx fs
  let a1 := if locked then r.1.filter (fun e => e.guarded) else r.1
  let a2 := if named then a1.filter (fun e => e.name != "") else a1
  (a2, r.2)

/-! ## Helper lemmas -/

/-- Did an invocation of a hook raise? -/
def raises (r : Except String Unit) : Bool :=
  match r with
  | Except.error _ => true
  | Except.ok _ => false

/-- Double-toggle specification used by C2: what one toggle does to exactly
the environment's own sentinel file, and that a second toggle restores the
original record and the original filesystem. -/
def togglePairOk (tog : FS → EnvironmentInfo → Except String (EnvironmentInfo × FS))
    (marker : String) (fs : FS) (env : EnvironmentInfo) : Prop :=
  ∃ env1 fs1 env2 fs2,
    tog fs env = Except.ok (env1, fs1) ∧
    env1.name = env.name ∧ env1.path = env.path ∧
    env1.guarded = (!env.guarded) ∧
    fs1 (joinpath env.path marker) = (!fs (joinpath env.path marker)) ∧
    (∀ q, q ≠ joinpath env.path marker → fs1 q = fs q) ∧
    tog fs1 env1 = Except.ok (env2, fs2) ∧
    env2 = env ∧ ∀ q, fs2 q = fs q

/-- Sample environment used by witnesses. -/
def eFoo : EnvironmentInfo := ⟨"foo", "/c/envs/foo", true⟩

/-- Sample filesystem with both sentinel files present for `eFoo`. -/
def fsBoth : FS :=
  fun p => p == "/c/envs/foo/.protected" || p == "/c/envs/foo/.locked"

/-- Sample host state: search dir `/c/envs`, root `/c`, known prefixes the
root and `/c/envs/foo`, targeting/activating `/c/envs/foo`, no explicit
name/prefix argument, not in dry-run mode. -/
def ctxFoo : Context :=
  { envs_dirs := ["/c/envs"], rootDir := "/c",
    prefixes := ["/c", "/c/envs/foo"],
    dry_run := false, targetDir := "/c/envs/foo", activeDir := "/c/envs/foo",
    cmd_line := none }

/-- Sample host state as `ctxFoo` but with dry-run mode reported. -/
def ctxDry : Context := { ctxFoo with dry_run := true }

/-- Sample filesystem: only the envlock sentinel of `/c/envs/foo` exists. -/
def fsLocked : FS := fun p => p == "/c/envs/foo/.locked"

/-- Sample explicit `--name foo` command-line arguments. -/
def argsName : CmdArgs := ⟨"foo", ""⟩

/-- Sample host state with an explicit `--name foo` argument. -/
def ctxName : Context := { ctxFoo with cmd_line := some argsName }

/-- Sample host state whose target prefix is not a known environment. -/
def ctxElse : Context := { ctxFoo with targetDir := "/elsewhere" }

/-- Sample filesystem: only the conda_protect sentinel of `/c/envs/foo`
exists. -/
def fsProt : FS := fun p => p == "/c/envs/foo/.protected"

theorem unnamedStep_fs (marker : String) (vals : List String)
    (acc : List EnvironmentInfo × FS) (p : String) :
    (unnamedStep marker vals acc p).2 = acc.2 := by
  unfold unnamedStep pathExists
  split <;> rfl

theorem namedStep_fs (marker : String) (acc : List EnvironmentInfo × FS)
    (kv : String × String) : (namedStep marker acc kv).2 = acc.2 := rfl

theorem foldl_unnamedStep_fs (marker : String) (vals : List String)
    (l : List String) : ∀ acc, (l.foldl (unnamedStep marker vals) acc).2 = acc.2 := by
  induction l with
  | nil => intro acc; rfl
  | cons p l ih => intro acc; rw [List.foldl_cons, ih, unnamedStep_fs]

theorem foldl_namedStep_fs (marker : String) (l : List (String × String)) :
    ∀ acc, (l.foldl (namedStep marker) acc).2 = acc.2 := by
  induction l with
  | nil => intro acc; rfl
  | cons kv l ih => intro acc; rw [List.foldl_cons, ih, namedStep_fs]

theorem get_environment_info_fs (marker : String) (ctx : Context) (fs : FS) :
    (get_environment_info marker ctx fs).2 = fs := by
  unfold get_environment_info
  rw [foldl_namedStep_fs, foldl_unnamedStep_fs]

theorem validate_environment_fs (marker : String) (ctx : Context) (fs : FS)
    (v : Option String) : (validate_environment marker ctx fs v).2 = fs := by
  unfold validate_environment pathExists
  rcases v with _ | s
  · rfl
  · dsimp only
    split
    · rfl
    · split <;> rfl

/-! ## C8 -/

/-- C8: every read-only operation — the sentinel-file existence check, the
environment enumeration used by list mode and by the hooks, and token
resolution — returns the filesystem unchanged: reading never creates, deletes
or modifies any sentinel file. -/
theorem C8_reads_do_not_mutate (marker : String) (ctx : Context) (fs : FS)
    (p : String) (v : Option String) :
    (pathExists fs p).2 = fs ∧
    (get_environment_info marker ctx fs).2 = fs ∧
    (validate_environment marker ctx fs v).2 = fs :=
  ⟨rfl, get_environment_info_fs marker ctx fs, validate_environment_fs marker ctx fs v⟩

/-! ## C7 -/

/-- C7: list mode of both plugins returns, with the named-only filter, exactly
the enumerated environments with non-empty name; with the flagged-only filter
(`--protected` / `--locked`) exactly those whose flag state is true; and with
both filters exactly the intersection. -/
theorem C7_list_filters (ctx : Context) (fs : FS) (e : EnvironmentInfo) :
    (e ∈ (guard_list ctx fs false true).1 ↔
       e ∈ (get_environment_info GUARDFILE_NAME ctx fs).1 ∧ e.name ≠ "") ∧
    (e ∈ (guard_list ctx fs true false).1 ↔
       e ∈ (get_environment_info GUARDFILE_NAME ctx fs).1 ∧ e.guarded = true) ∧
    (e ∈ (guard_list ctx fs true true).1 ↔
       e ∈ (get_environment_info GUARDFILE_NAME ctx fs).1 ∧
         e.guarded = true ∧ e.name ≠ "") ∧
    (e ∈ (envlock_list ctx fs false true).1 ↔
       e ∈ (get_environment_info LOCKFILE_NAME ctx fs).1 ∧ e.name ≠ "") ∧
    (e ∈ (envlock_list ctx fs true false).1 ↔
       e ∈ (get_environment_info LOCKFILE_NAME ctx fs).1 ∧ e.guarded = true) ∧
    (e ∈ (envlock_list ctx fs true true).1 ↔
       e ∈ (get_environment_info LOCKFILE_NAME ctx fs).1 ∧
         e.guarded = true ∧ e.name ≠ "") := by
  simp [guard_list, envlock_list, List.mem_filter, bne_iff_ne]
  tauto

/-! ## C9 -/

/-- C9: invoking the toggle subcommand with no environment token and without
the list flag makes the resolver callback return `None`; the toggle is applied
to `None` and the invocation fails with an attribute access on `None`
(`AttributeError`), not with a NotFound/usage error. -/
theorem C9_toggle_none_attribute_error (marker : String) (ctx : Context)
    (fs : FS) (pf nf : Bool) :
    (validate_environment marker ctx fs none).1 = Except.ok none ∧
    guard_cmd ctx fs none false pf nf = (GuardResult.attrErrorNone, fs) ∧
    envlock_lock fs none = (GuardResult.attrErrorNone, fs) ∧
    ∀ m, GuardResult.attrErrorNone ≠ GuardResult.condaErr m := by
  refine ⟨rfl, rfl, rfl, ?_⟩
  intro m h
  exact GuardResult.noConfusion h

/-! ## C2 -/

/-- With the in-memory flag consistent with the sentinel file, `toggleCore`
succeeds and returns the record with the flag negated together with the
filesystem with the sentinel file flipped. -/
theorem toggleCore_spec (marker rm am : String) (fs : FS) (env : EnvironmentInfo)
    (h : env.guarded = fs (joinpath env.path marker)) :
    toggleCore marker rm am fs env =
      Except.ok (⟨env.name, env.path, !env.guarded⟩,
        fun q => if q = joinpath env.path marker then !env.guarded else fs q) := by
  unfold toggleCore unlinkFile touchFile
  cases hg : env.guarded with
  | false => simp [hg, ← h]
  | true => simp [hg, ← h]

theorem toggleCore_pair (marker rm am : String) (fs : FS) (env : EnvironmentInfo)
    (h : env.guarded = fs (joinpath env.path marker)) :
    togglePairOk (toggleCore marker rm am) marker fs env := by
  have h1 := toggleCore_spec marker rm am fs env h
  have hc1 : (EnvironmentInfo.mk env.name env.path (!env.guarded)).guarded =
      (fun q => if q = joinpath env.path marker then !env.guarded else fs q)
        (joinpath (EnvironmentInfo.mk env.name env.path (!env.guarded)).path marker) := by
    simp
  have h2 := toggleCore_spec marker rm am
    (fun q => if q = joinpath env.path marker then !env.guarded else fs q)
    (EnvironmentInfo.mk env.name env.path (!env.guarded)) hc1
  refine ⟨⟨env.name, env.path, !env.guarded⟩, _, _, _, h1, rfl, rfl, rfl, ?_, ?_, h2, ?_, ?_⟩
  · simp [← h]
  · intro q hq
    simp [hq]
  · cases env with
    | mk n p g => simp
  · intro q
    by_cases hq : q = joinpath env.path marker
    · simp [hq, ← h]
    · simp [hq]

/-- C2: for an environment whose in-memory flag agrees with the filesystem (no
external change intervening), each toggle flips exactly that environment's
persisted sentinel file and leaves every other file unchanged, and toggling
twice in succession (toggling the result of the first toggle) returns the
original record and the original persisted state.  This holds for the
conda_protect `toggle_environment_guard` and the envlock
`toggle_environment_lock` alike. -/
theorem C2_toggle_pair (fs : FS) (env : EnvironmentInfo)
    (hg : env.guarded = fs (joinpath env.path GUARDFILE_NAME))
    (hl : env.guarded = fs (joinpath env.path LOCKFILE_NAME)) :
    togglePairOk toggle_environment_guard GUARDFILE_NAME fs env ∧
    togglePairOk toggle_environment_lock LOCKFILE_NAME fs env :=
  ⟨toggleCore_pair GUARDFILE_NAME
      "Unable to remove a guard for the following reason: "
      "Unable to guard for the following reason: " fs env hg,
   toggleCore_pair LOCKFILE_NAME
      "Unable to remove a lock for the following reason: "
      "Unable to create a lock for the following reason: " fs env hl⟩

/-- Witness for C2 at a concrete guarded environment. -/
theorem C2_toggle_pair_witness :
    eFoo.guarded = fsBoth (joinpath eFoo.path GUARDFILE_NAME) ∧
    eFoo.guarded = fsBoth (joinpath eFoo.path LOCKFILE_NAME) ∧
    (togglePairOk toggle_environment_guard GUARDFILE_NAME fsBoth eFoo ∧
     togglePairOk toggle_environment_lock LOCKFILE_NAME fsBoth eFoo) :=
  ⟨rfl, rfl, C2_toggle_pair fsBoth eFoo rfl rfl⟩

/-! ## C1 -/

theorem raises_eq_false_iff (r : Except String Unit) :
    raises r = false ↔ r = Except.ok () := by
  cases r with
  | error e => simp [raises]
  | ok u => cases u; simp [raises]

theorem conda_guard_hook_dry_run (ctx : Context) (fs : FS)
    (h : ctx.dry_run = true) :
    (conda_guard_pre_commands_action ctx fs).1 = Except.ok () := by
  unfold conda_guard_pre_commands_action
  simp [h]

theorem conda_guard_hook_raises_iff (ctx : Context) (fs : FS) :
    raises (conda_guard_pre_commands_action ctx fs).1 = true ↔
      ctx.dry_run = false ∧
        ∃ env ∈ (get_environment_info GUARDFILE_NAME ctx fs).1,
          lookupMatches (hookLookup ctx) env = true ∧ env.guarded = true := by
  unfold conda_guard_pre_commands_action
  cases hd : ctx.dry_run with
  | true => simp [raises]
  | false =>
    simp only [Bool.false_eq_true, if_false]
    cases hf : List.filter (fun env => lookupMatches (hookLookup ctx) env && env.guarded)
        (get_environment_info GUARDFILE_NAME ctx fs).1 with
    | nil =>
      simp only [hf, raises]
      simp only [List.filter_eq_nil_iff, Bool.and_eq_true] at hf
      simp only [Bool.false_eq_true, false_iff, not_and, not_exists]
      intro _ env hm h1
      intro h2
      exact hf env hm ⟨h1, h2⟩
    | cons env rest =>
      simp only [hf, raises, true_iff]
      have hm : env ∈ List.filter
          (fun env => lookupMatches (hookLookup ctx) env && env.guarded)
          (get_environment_info GUARDFILE_NAME ctx fs).1 := by
        rw [hf]; exact List.mem_cons_self env rest
      have h2 := List.of_mem_filter hm
      simp only [Bool.and_eq_true] at h2
      exact ⟨by simp, env, List.mem_of_mem_filter hm, h2.1, h2.2⟩

theorem envlock_hook_raises_iff (ctx : Context) (fs : FS) (args : CmdArgs) :
    raises (custom_plugin_pre_commands_action ctx fs args).1 = true ↔
      ∃ env ∈ (get_environment_info LOCKFILE_NAME ctx fs).1,
        lookupMatches (envlockLookup ctx args) env = true ∧ env.guarded = true := by
  unfold custom_plugin_pre_commands_action
  cases hf : List.filter (fun env => lookupMatches (envlockLookup ctx args) env && env.guarded)
      (get_environment_info LOCKFILE_NAME ctx fs).1 with
  | nil =>
    simp only [hf, raises]
    simp only [List.filter_eq_nil_iff, Bool.and_eq_true] at hf
    simp only [Bool.false_eq_true, false_iff, not_exists]
    intro env hm
    exact hf env hm.1 hm.2
  | cons env rest =>
    simp only [hf, raises, true_iff]
    have hm : env ∈ List.filter
        (fun env => lookupMatches (envlockLookup ctx args) env && env.guarded)
        (get_environment_info LOCKFILE_NAME ctx fs).1 := by
      rw [hf]; exact List.mem_cons_self env rest
    have h2 := List.of_mem_filter hm
    simp only [Bool.and_eq_true] at h2
    exact ⟨env, List.mem_of_mem_filter hm, h2.1, h2.2⟩

/-- C1 counterexample: with the host reporting dry-run mode and the resolved
target environment `/c/envs/foo` flagged, the envlock pre-command hook
(`custom_plugin_pre_commands_action`) still raises — it never consults
`context.dry_run` — refuting the claim that the hook returns without raising
whenever the host reports dry-run mode. -/
theorem C1_counterexample :
    ctxDry.dry_run = true ∧
    raises (custom_plugin_pre_commands_action ctxDry fsLocked ⟨"", ""⟩).1 = true :=
  ⟨rfl, rfl⟩

/-- C1 (amended): the conda_protect hook raises iff the host is not in
dry-run mode and the resolved target environment is flagged, and returns
without raising whenever dry-run is set; the envlock hook does not consult
dry-run mode and raises iff the resolved target environment is flagged. -/
theorem C1_amended_hook_blocking :
    (∀ (ctx : Context) (fs : FS), ctx.dry_run = true →
       (conda_guard_pre_commands_action ctx fs).1 = Except.ok ()) ∧
    (∀ (ctx : Context) (fs : FS),
       raises (conda_guard_pre_commands_action ctx fs).1 = true ↔
         ctx.dry_run = false ∧
           ∃ env ∈ (get_environment_info GUARDFILE_NAME ctx fs).1,
             lookupMatches (hookLookup ctx) env = true ∧ env.guarded = true) ∧
    (∀ (ctx : Context) (fs : FS) (args : CmdArgs),
       raises (custom_plugin_pre_commands_action ctx fs args).1 = true ↔
         ∃ env ∈ (get_environment_info LOCKFILE_NAME ctx fs).1,
           lookupMatches (envlockLookup ctx args) env = true ∧ env.guarded = true) :=
  ⟨conda_guard_hook_dry_run, conda_guard_hook_raises_iff, envlock_hook_raises_iff⟩

/-- Witness for C1 (amended): the dry-run bypass of the conda_protect hook at
a concrete flagged environment. -/
theorem C1_amended_witness :
    ctxDry.dry_run = true ∧
    (conda_guard_pre_commands_action ctxDry fsLocked).1 = Except.ok () :=
  ⟨rfl, C1_amended_hook_blocking.1 ctxDry fsLocked rfl⟩

/-! ## C4 -/

/-- C4: both hooks determine their target in the order (1) explicit name
argument, (2) explicit location/prefix argument, (3) fallback to the host
prefix (`context.target_prefix` for conda_protect, `context.active_prefix`
for envlock); and when nothing in the known environment set matches the
resolved target, the hook raises nothing. -/
theorem C4_target_resolution :
    (∀ (ctx : Context) (args : CmdArgs), ctx.cmd_line = some args →
       args.namearg ≠ "" → hookLookup ctx = Lookup.byName args.namearg) ∧
    (∀ (ctx : Context) (args : CmdArgs), ctx.cmd_line = some args →
       args.namearg = "" → args.prefixArg ≠ "" →
       hookLookup ctx = Lookup.byPath args.prefixArg) ∧
    (∀ (ctx : Context), ctx.cmd_line = none →
       hookLookup ctx = Lookup.byPath ctx.targetDir) ∧
    (∀ (ctx : Context) (args : CmdArgs), ctx.cmd_line = some args →
       args.namearg = "" → args.prefixArg = "" →
       hookLookup ctx = Lookup.byPath ctx.targetDir) ∧
    (∀ (ctx : Context) (args : CmdArgs),
       args.namearg ≠ "" → envlockLookup ctx args = Lookup.byName args.namearg) ∧
    (∀ (ctx : Context) (args : CmdArgs),
       args.namearg = "" → args.prefixArg ≠ "" →
       envlockLookup ctx args = Lookup.byPath args.prefixArg) ∧
    (∀ (ctx : Context) (args : CmdArgs),
       args.namearg = "" → args.prefixArg = "" →
       envlockLookup ctx args = Lookup.byPath ctx.activeDir) ∧
    (∀ (ctx : Context) (fs : FS),
       (∀ env ∈ (get_environment_info GUARDFILE_NAME ctx fs).1,
          lookupMatches (hookLookup ctx) env = false) →
       (conda_guard_pre_commands_action ctx fs).1 = Except.ok ()) ∧
    (∀ (ctx : Context) (fs : FS) (args : CmdArgs),
       (∀ env ∈ (get_environment_info LOCKFILE_NAME ctx fs).1,
          lookupMatches (envlockLookup ctx args) env = false) →
       (custom_plugin_pre_commands_action ctx fs args).1 = Except.ok ()) := by
  refine ⟨?_, ?_, ?_, ?_, ?_, ?_, ?_, ?_, ?_⟩
  · intro ctx args h hn
    unfold hookLookup _get_active_environment
    rw [h]
    simp [bne_iff_ne, hn]
  · intro ctx args h hn hp
    unfold hookLookup _get_active_environment
    rw [h]
    simp [hn, bne_iff_ne, hp]
  · intro ctx h
    unfold hookLookup _get_active_environment
    rw [h]
  · intro ctx args h hn hp
    unfold hookLookup _get_active_environment
    rw [h]
    simp [hn, hp]
  · intro ctx args hn
    unfold envlockLookup
    simp [bne_iff_ne, hn]
  · intro ctx args hn hp
    unfold envlockLookup
    simp [hn, bne_iff_ne, hp]
  · intro ctx args hn hp
    unfold envlockLookup
    simp [hn, hp]
  · intro ctx fs hmatch
    cases hb : raises (conda_guard_pre_commands_action ctx fs).1 with
    | false => exact (raises_eq_false_iff _).mp hb
    | true =>
      obtain ⟨_, env, hm, h1, _⟩ := (conda_guard_hook_raises_iff ctx fs).mp hb
      rw [hmatch env hm] at h1
      cases h1
  · intro ctx fs args hmatch
    cases hb : raises (custom_plugin_pre_commands_action ctx fs args).1 with
    | false => exact (raises_eq_false_iff _).mp hb
    | true =>
      obtain ⟨env, hm, h1, _⟩ := (envlock_hook_raises_iff ctx fs args).mp hb
      rw [hmatch env hm] at h1
      cases h1

/-- Witness for C4 at concrete inputs: an explicit name argument wins, an
absent argument falls back to the target prefix, and a target outside the
known set produces no raise even though a known environment is flagged. -/
theorem C4_target_resolution_witness :
    (ctxName.cmd_line = some argsName ∧ argsName.namearg ≠ "" ∧
       hookLookup ctxName = Lookup.byName argsName.namearg) ∧
    (ctxFoo.cmd_line = none ∧ hookLookup ctxFoo = Lookup.byPath ctxFoo.targetDir) ∧
    ((∀ env ∈ (get_environment_info GUARDFILE_NAME ctxElse fsProt).1,
        lookupMatches (hookLookup ctxElse) env = false) ∧
      (conda_guard_pre_commands_action ctxElse fsProt).1 = Except.ok ()) :=
  ⟨⟨rfl, by decide, C4_target_resolution.1 ctxName argsName rfl (by decide)⟩,
   ⟨rfl, C4_target_resolution.2.2.1 ctxFoo rfl⟩,
   ⟨by decide, C4_target_resolution.2.2.2.2.2.2.2.1 ctxElse fsProt (by decide)⟩⟩

/-! ## C5 -/

/-- Whenever the conda_protect hook raises, the message carries the blocked
environment's display identifier (name if non-empty, else location) twice and
names the registered `protect` subcommand in its remediation hint. -/
theorem conda_guard_hook_msg (ctx : Context) (fs : FS) :
    (conda_guard_pre_commands_action ctx fs).1 = Except.ok () ∨
    ∃ env ∈ (get_environment_info GUARDFILE_NAME ctx fs).1,
      lookupMatches (hookLookup ctx) env = true ∧ env.guarded = true ∧
      (conda_guard_pre_commands_action ctx fs).1 =
        Except.error ("Environment \"" ++ displayId env ++
          "\" is currently protected. " ++ "Run `conda " ++
          conda_protect_subcommand_name ++ " \x27" ++ displayId env ++
          "\x27` to remove protection.") := by
  unfold conda_guard_pre_commands_action
  cases hd : ctx.dry_run with
  | true => exact Or.inl (by simp)
  | false =>
    simp only [Bool.false_eq_true, if_false]
    cases hf : List.filter (fun env => lookupMatches (hookLookup ctx) env && env.guarded)
        (get_environment_info GUARDFILE_NAME ctx fs).1 with
    | nil => exact Or.inl (by simp [hf])
    | cons env rest =>
      right
      have hm : env ∈ List.filter
          (fun env => lookupMatches (hookLookup ctx) env && env.guarded)
          (get_environment_info GUARDFILE_NAME ctx fs).1 := by
        rw [hf]; exact List.mem_cons_self env rest
      have h2 := List.of_mem_filter hm
      simp only [Bool.and_eq_true] at h2
      exact ⟨env, List.mem_of_mem_filter hm, h2.1, h2.2, by simp [hf]; rfl⟩

/-- C5: the conda_protect hook's blocked message always carries the blocked
environment's display identifier (name if non-empty, else location) and a
remediation hint naming the registered `protect` toggle subcommand.  The
envlock hook's message carries the display identifier only in its first
sentence; its remediation hint is a non-interpolated literal — the placeholder
text (between braces in the source) appears verbatim — and it names
`conda envlock` although the registered subcommand is `el`: evaluated here at
a concrete blocked environment. -/
theorem C5_blocked_message :
    (∀ (ctx : Context) (fs : FS),
       (conda_guard_pre_commands_action ctx fs).1 = Except.ok () ∨
       ∃ env ∈ (get_environment_info GUARDFILE_NAME ctx fs).1,
         lookupMatches (hookLookup ctx) env = true ∧ env.guarded = true ∧
         (conda_guard_pre_commands_action ctx fs).1 =
           Except.error ("Environment \"" ++ displayId env ++
             "\" is currently protected. " ++ "Run `conda " ++
             conda_protect_subcommand_name ++ " \x27" ++ displayId env ++
             "\x27` to remove protection.")) ∧
    (custom_plugin_pre_commands_action ctxFoo fsLocked ⟨"", ""⟩).1 =
      Except.error
        "Environment \"foo\" is currently locked. Run `conda envlock \x27\x7benv.name or env.path\x7d\x27` to unlock it." ∧
    envlock_subcommand_name = "el" ∧
    envlock_subcommand_name ≠ "envlock" :=
  ⟨conda_guard_hook_msg, rfl, rfl, by decide⟩

/-! ## C3 -/

theorem dictLookup_eq_none_iff (d : Dict) (k : String) :
    dictLookup d k = none ↔ k ∉ dictKeys d := by
  unfold dictLookup dictKeys
  simp [Option.map_eq_none', List.find?_eq_none, List.mem_map]
  exact ⟨fun h x hx => h k x hx rfl, fun h a b hab ha => h b (ha ▸ hab)⟩

/-- C3: for every non-empty token, the resolver (`validate_environment`, same
in both plugins up to the raised error class) tries the token first as an
exact known location — even when the token is also a known name — then as a
known environment name; when the token is neither, it fails with the
user-facing "Environment not found" error. -/
theorem C3_resolver (marker : String) (ctx : Context) (fs : FS) (v : String)
    (_hv : v ≠ "") :
    (ctx.prefixes.contains v = true →
       (validate_environment marker ctx fs (some v)).1 =
         Except.ok (some ⟨v, v, fs (joinpath v marker)⟩)) ∧
    (ctx.prefixes.contains v = false →
       v ∈ dictKeys (get_name_to_prefix_map ctx ctx.prefixes) →
       ∃ p, dictLookup (get_name_to_prefix_map ctx ctx.prefixes) v = some p ∧
         (validate_environment marker ctx fs (some v)).1 =
           Except.ok (some ⟨v, p, fs (joinpath p marker)⟩)) ∧
    (ctx.prefixes.contains v = false →
       v ∉ dictKeys (get_name_to_prefix_map ctx ctx.prefixes) →
       (validate_environment marker ctx fs (some v)).1 =
         Except.error "Environment not found") := by
  refine ⟨?_, ?_, ?_⟩
  · intro hc
    have hm : v ∈ ctx.prefixes := by simpa using hc
    unfold validate_environment pathExists
    simp [hm]
  · intro hc hk
    have hm : v ∉ ctx.prefixes := by simpa using hc
    cases hl : dictLookup (get_name_to_prefix_map ctx ctx.prefixes) v with
    | none => exact absurd hk ((dictLookup_eq_none_iff _ _).mp hl)
    | some p =>
      refine ⟨p, rfl, ?_⟩
      unfold validate_environment pathExists
      simp [hm, hl]
  · intro hc hk
    have hm : v ∉ ctx.prefixes := by simpa using hc
    have hl : dictLookup (get_name_to_prefix_map ctx ctx.prefixes) v = none :=
      (dictLookup_eq_none_iff _ _).mpr hk
    unfold validate_environment pathExists
    simp [hm, hl]

/-- Witness for C3: a token that is a known location resolves as a location,
and a token that is neither location nor name yields "Environment not found". -/
theorem C3_resolver_witness :
    (("/c/envs/foo" : String) ≠ "" ∧
       ctxFoo.prefixes.contains "/c/envs/foo" = true ∧
       (validate_environment GUARDFILE_NAME ctxFoo fsProt (some "/c/envs/foo")).1 =
         Except.ok (some ⟨"/c/envs/foo", "/c/envs/foo", true⟩)) ∧
    (("nope" : String) ≠ "" ∧
       ctxFoo.prefixes.contains "nope" = false ∧
       "nope" ∉ dictKeys (get_name_to_prefix_map ctxFoo ctxFoo.prefixes) ∧
       (validate_environment GUARDFILE_NAME ctxFoo fsProt (some "nope")).1 =
         Except.error "Environment not found") :=
  ⟨⟨by decide, rfl,
      (C3_resolver GUARDFILE_NAME ctxFoo fsProt "/c/envs/foo" (by decide)).1 rfl⟩,
   ⟨by decide, rfl, by decide,
      (C3_resolver GUARDFILE_NAME ctxFoo fsProt "nope" (by decide)).2.2 rfl (by decide)⟩⟩

/-! ## C6 -/

theorem dictLookup_cons (k' v' : String) (rest : Dict) (k : String) :
    dictLookup ((k', v') :: rest) k =
      if k' = k then some v' else dictLookup rest k := by
  unfold dictLookup
  by_cases h : k' = k <;> simp [List.find?_cons, h]

theorem dictInsert_cons_eq (k' v' v : String) (rest : Dict) :
    dictInsert ((k', v') :: rest) k' v = (k', v) :: rest := by
  simp [dictInsert]

theorem dictInsert_cons_ne (k' v' k v : String) (rest : Dict) (h : k' ≠ k) :
    dictInsert ((k', v') :: rest) k v = (k', v') :: dictInsert rest k v := by
  simp [dictInsert, h]

theorem dictLookup_insert_self (d : Dict) (k v : String) :
    dictLookup (dictInsert d k v) k = some v := by
  induction d with
  | nil => simp [dictInsert, dictLookup_cons]
  | cons head rest ih =>
    obtain ⟨k', v'⟩ := head
    by_cases h : k' = k
    · subst h
      rw [dictInsert_cons_eq, dictLookup_cons, if_pos rfl]
    · rw [dictInsert_cons_ne _ _ _ _ _ h, dictLookup_cons, if_neg h]
      exact ih

theorem dictLookup_insert_ne (d : Dict) (k v k2 : String) (h : k2 ≠ k) :
    dictLookup (dictInsert d k v) k2 = dictLookup d k2 := by
  induction d with
  | nil =>
    unfold dictInsert
    rw [dictLookup_cons, if_neg (Ne.symm h)]
  | cons head rest ih =>
    obtain ⟨k', v'⟩ := head
    by_cases hk : k' = k
    · subst hk
      rw [dictInsert_cons_eq, dictLookup_cons, dictLookup_cons,
        if_neg (Ne.symm h), if_neg (Ne.symm h)]
    · rw [dictInsert_cons_ne _ _ _ _ _ hk, dictLookup_cons, dictLookup_cons, ih]

theorem mem_dictKeys_insert_self (d : Dict) (k v : String) :
    k ∈ dictKeys (dictInsert d k v) := by
  induction d with
  | nil => simp [dictInsert, dictKeys]
  | cons head rest ih =>
    obtain ⟨k', v'⟩ := head
    by_cases h : k' = k
    · subst h
      rw [dictInsert_cons_eq]
      simp [dictKeys]
    · rw [dictInsert_cons_ne _ _ _ _ _ h]
      simp only [dictKeys, List.map_cons, List.mem_cons]
      exact Or.inr ih

theorem mem_dictKeys_insert_of_mem (d : Dict) (k v k2 : String)
    (h : k2 ∈ dictKeys d) : k2 ∈ dictKeys (dictInsert d k v) := by
  induction d with
  | nil => cases h
  | cons head rest ih =>
    obtain ⟨k', v'⟩ := head
    simp only [dictKeys, List.map_cons, List.mem_cons] at h
    by_cases hk : k' = k
    · subst hk
      rw [dictInsert_cons_eq]
      simp only [dictKeys, List.map_cons, List.mem_cons]
      exact h
    · rw [dictInsert_cons_ne _ _ _ _ _ hk]
      simp only [dictKeys, List.map_cons, List.mem_cons]
      rcases h with h | h
      · exact Or.inl h
      · exact Or.inr (ih h)

theorem envDirStep_keys_sub (p : String) (d : Dict) (e : String) (k : String)
    (h : k ∈ dictKeys d) : k ∈ dictKeys (envDirStep p d e) := by
  unfold envDirStep
  split
  · exact mem_dictKeys_insert_of_mem d (basename p) p k h
  · exact h

theorem foldl_envDirStep_keys_sub (p : String) (dirs : List String) :
    ∀ d k, k ∈ dictKeys d → k ∈ dictKeys (dirs.foldl (envDirStep p) d) := by
  induction dirs with
  | nil => intro d k h; exact h
  | cons e dirs ih =>
    intro d k h
    rw [List.foldl_cons]
    exact ih _ k (envDirStep_keys_sub p d e k h)

theorem foldl_envDirStep_adds (p : String) (dirs : List String) :
    ∀ d, (∃ e ∈ dirs, startswith p e = true) →
      basename p ∈ dictKeys (dirs.foldl (envDirStep p) d) := by
  induction dirs with
  | nil => rintro d ⟨e, he, _⟩; cases he
  | cons e dirs ih =>
    rintro d ⟨e', he', hs⟩
    rw [List.foldl_cons]
    rcases List.mem_cons.mp he' with rfl | hmem
    · apply foldl_envDirStep_keys_sub
      unfold envDirStep
      rw [hs, if_pos rfl]
      exact mem_dictKeys_insert_self d (basename p) p
    · exact ih _ ⟨e', hmem, hs⟩

theorem foldl_n2pStep_keys_sub (dirs : List String) (ps : List String) :
    ∀ d k, k ∈ dictKeys d → k ∈ dictKeys (ps.foldl (n2pStep dirs) d) := by
  induction ps with
  | nil => intro d k h; exact h
  | cons p ps ih =>
    intro d k h
    rw [List.foldl_cons]
    exact ih _ k (foldl_envDirStep_keys_sub p dirs d k h)

theorem foldl_n2pStep_adds (dirs : List String) (ps : List String) :
    ∀ d L, L ∈ ps → (∃ e ∈ dirs, startswith L e = true) →
      basename L ∈ dictKeys (ps.foldl (n2pStep dirs) d) := by
  induction ps with
  | nil => intro d L h; cases h
  | cons p ps ih =>
    intro d L hL hq
    rw [List.foldl_cons]
    rcases List.mem_cons.mp hL with rfl | hmem
    · exact foldl_n2pStep_keys_sub dirs ps _ _ (foldl_envDirStep_adds L dirs d hq)
    · exact ih _ L hmem hq

theorem foldl_envDirStep_lookup_keep (p : String) (dirs : List String) :
    ∀ d, dictLookup d (basename p) = some p →
      dictLookup (dirs.foldl (envDirStep p) d) (basename p) = some p := by
  induction dirs with
  | nil => intro d h; exact h
  | cons e dirs ih =>
    intro d h
    rw [List.foldl_cons]
    apply ih
    unfold envDirStep
    split
    · exact dictLookup_insert_self d (basename p) p
    · exact h

theorem foldl_envDirStep_lookup_set (p : String) (dirs : List String) :
    ∀ d, (∃ e ∈ dirs, startswith p e = true) →
      dictLookup (dirs.foldl (envDirStep p) d) (basename p) = some p := by
  induction dirs with
  | nil => rintro d ⟨e, he, _⟩; cases he
  | cons e dirs ih =>
    rintro d ⟨e', he', hs⟩
    rw [List.foldl_cons]
    rcases List.mem_cons.mp he' with rfl | hmem
    · apply foldl_envDirStep_lookup_keep
      unfold envDirStep
      rw [hs, if_pos rfl]
      exact dictLookup_insert_self d (basename p) p
    · exact ih _ ⟨e', hmem, hs⟩

/-- C6: the name-to-location map has a key "final path segment of L" for every
known location L that starts with a configured search-directory, always maps
the reserved root name to the host's root location, and on a basename
collision the later-iterated location overwrites the earlier one: appending a
qualifying location L at the end of the iteration makes the map send
`basename L` to L, whatever came before. -/
theorem C6_name_map (ctx : Context) :
    (∀ L ∈ ctx.prefixes, (∃ e ∈ ctx.envs_dirs, startswith L e = true) →
       basename L ∈ dictKeys (get_name_to_prefix_map ctx ctx.prefixes)) ∧
    (∀ ps : List String,
       dictLookup (get_name_to_prefix_map ctx ps) ROOT_ENV_NAME =
         some ctx.rootDir) ∧
    (∀ (ps : List String) (L : String),
       (∃ e ∈ ctx.envs_dirs, startswith L e = true) →
       basename L ≠ ROOT_ENV_NAME →
       dictLookup (get_name_to_prefix_map ctx (ps ++ [L])) (basename L) =
         some L) := by
  refine ⟨?_, ?_, ?_⟩
  · intro L hL hq
    unfold get_name_to_prefix_map
    exact mem_dictKeys_insert_of_mem _ _ _ _
      (foldl_n2pStep_adds ctx.envs_dirs ctx.prefixes [] L hL hq)
  · intro ps
    unfold get_name_to_prefix_map
    exact dictLookup_insert_self _ _ _
  · intro ps L hq hne
    unfold get_name_to_prefix_map
    rw [dictLookup_insert_ne _ _ _ _ hne, List.foldl_append]
    simp only [List.foldl_cons, List.foldl_nil]
    exact foldl_envDirStep_lookup_set L ctx.envs_dirs _ hq

/-- Witness for C6 at concrete inputs, including a later location appended
after another one. -/
theorem C6_name_map_witness :
    (("/c/envs/foo" : String) ∈ ctxFoo.prefixes ∧
       (∃ e ∈ ctxFoo.envs_dirs, startswith "/c/envs/foo" e = true) ∧
       basename "/c/envs/foo" ∈
         dictKeys (get_name_to_prefix_map ctxFoo ctxFoo.prefixes)) ∧
    dictLookup (get_name_to_prefix_map ctxFoo ctxFoo.prefixes) ROOT_ENV_NAME =
      some ctxFoo.rootDir ∧
    (basename "/c/envs/foo" ≠ ROOT_ENV_NAME ∧
       dictLookup (get_name_to_prefix_map ctxFoo (["/c/envs/other"] ++ ["/c/envs/foo"]))
         (basename "/c/envs/foo") = some "/c/envs/foo") :=
  ⟨⟨by decide, by decide,
      (C6_name_map ctxFoo).1 "/c/envs/foo" (by decide) (by decide)⟩,
   (C6_name_map ctxFoo).2.1 ctxFoo.prefixes,
   ⟨by decide,
      (C6_name_map ctxFoo).2.2 ["/c/envs/other"] "/c/envs/foo" (by decide) (by decide)⟩⟩

/-! ## C10 -/

theorem charListLe_total : ∀ a b, charListLe a b = true ∨ charListLe b a = true := by
  intro a
  induction a with
  | nil => intro b; exact Or.inl rfl
  | cons x as ih =>
    intro b
    cases b with
    | nil => exact Or.inr rfl
    | cons y bs =>
      by_cases h : x = y
      · subst h
        unfold charListLe
        rw [if_pos rfl, if_pos rfl]
        exact ih bs
      · have hxy : x.toNat ≠ y.toNat := fun hc => h (Char.ext (UInt32.ext hc))
        unfold charListLe
        rw [if_neg h, if_neg (fun hc => h hc.symm)]
        rcases Nat.lt_or_gt_of_ne hxy with hlt | hgt
        · exact Or.inl (decide_eq_true hlt)
        · exact Or.inr (decide_eq_true hgt)

theorem charListLe_trans :
    ∀ a b c, charListLe a b = true → charListLe b c = true →
      charListLe a c = true := by
  intro a
  induction a with
  | nil => intro b c _ _; rfl
  | cons x as ih =>
    intro b c hab hbc
    cases b with
    | nil => cases hab
    | cons y bs =>
      cases c with
      | nil => cases hbc
      | cons z cs =>
        unfold charListLe at hab hbc ⊢
        by_cases hxy : x = y
        · subst hxy
          rw [if_pos rfl] at hab
          by_cases hxz : x = z
          · subst hxz
            rw [if_pos rfl] at hbc ⊢
            exact ih bs cs hab hbc
          · rw [if_neg hxz] at hbc ⊢
            exact hbc
        · rw [if_neg hxy] at hab
          have hab' : x.toNat < y.toNat := of_decide_eq_true hab
          by_cases hyz : y = z
          · subst hyz
            rw [if_neg hxy]
            exact hab
          · rw [if_neg hyz] at hbc
            have hbc' : y.toNat < z.toNat := of_decide_eq_true hbc
            have hxz' : x.toNat < z.toNat := Nat.lt_trans hab' hbc'
            have hxz : x ≠ z := fun hc => Nat.lt_irrefl _ (hc ▸ hxz')
            rw [if_neg hxz]
            exact decide_eq_true hxz'

theorem sorted_pySorted (l : List EnvironmentInfo) :
    List.Sorted nameLeR (pySorted l) := by
  haveI hT : IsTotal EnvironmentInfo nameLeR :=
    ⟨fun a b => charListLe_total a.name.data b.name.data⟩
  haveI hR : IsTrans EnvironmentInfo nameLeR :=
    ⟨fun a b c => charListLe_trans a.name.data b.name.data c.name.data⟩
  exact List.sorted_insertionSort nameLeR l

/-- C10: the environment enumeration (used by list mode and by both hooks)
always returns its environments in ascending `sorted`-order of name — the
Python string comparison, lexicographic on code points — and consequently the
environments with an empty name (locations outside the configured search
directories) all come before every named environment. -/
theorem C10_enumeration_sorted (marker : String) (ctx : Context) (fs : FS) :
    List.Sorted nameLeR (get_environment_info marker ctx fs).1 ∧
    List.Pairwise (fun a b => b.name = "" → a.name = "")
      (get_environment_info marker ctx fs).1 := by
  have hs : List.Sorted nameLeR (get_environment_info marker ctx fs).1 :=
    sorted_pySorted _
  refine ⟨hs, List.Pairwise.imp ?_ hs⟩
  intro a b hab hb
  unfold nameLeR nameLe at hab
  rw [hb] at hab
  cases hd : a.name.data with
  | nil => exact String.ext hd
  | cons c cs =>
    rw [hd] at hab
    cases hab

/-- Witness for C7 at a concrete state: the flagged-only filter keeps exactly
the flagged enumerated environments. -/
theorem C7_list_filters_witness :
    eFoo ∈ (guard_list ctxFoo fsProt true false).1 ↔
      eFoo ∈ (get_environment_info GUARDFILE_NAME ctxFoo fsProt).1 ∧
        eFoo.guarded = true :=
  (C7_list_filters ctxFoo fsProt eFoo).2.1

/-- Witness for C8 at a concrete state. -/
theorem C8_reads_do_not_mutate_witness :
    (pathExists fsProt "/c/envs/foo/.protected").2 = fsProt ∧
    (get_environment_info GUARDFILE_NAME ctxFoo fsProt).2 = fsProt ∧
    (validate_environment GUARDFILE_NAME ctxFoo fsProt none).2 = fsProt :=
  C8_reads_do_not_mutate GUARDFILE_NAME ctxFoo fsProt "/c/envs/foo/.protected" none

/-- Witness for C9 at a concrete state. -/
theorem C9_toggle_none_attribute_error_witness :
    (validate_environment GUARDFILE_NAME ctxFoo fsProt none).1 = Except.ok none ∧
    guard_cmd ctxFoo fsProt none false false false =
      (GuardResult.attrErrorNone, fsProt) ∧
    envlock_lock fsProt none = (GuardResult.attrErrorNone, fsProt) ∧
    ∀ m, GuardResult.attrErrorNone ≠ GuardResult.condaErr m :=
  C9_toggle_none_attribute_error GUARDFILE_NAME ctxFoo fsProt false false

/-- Witness for C10 at a concrete state. -/
theorem C10_enumeration_sorted_witness :
    List.Sorted nameLeR (get_environment_info GUARDFILE_NAME ctxFoo fsProt).1 ∧
    List.Pairwise (fun a b => b.name = "" → a.name = "")
      (get_environment_info GUARDFILE_NAME ctxFoo fsProt).1 :=
  C10_enumeration_sorted GUARDFILE_NAME ctxFoo fsProt
